import Mathlib

/-!
# Verification of wspick (src/main.rs)

A shallow embedding of the configuration model, directory scanner,
selection controller and launcher of the `wspick` project picker,
together with proofs of the specification claims.

Modelling conventions:
* `IndexMap<String, String>` is an association list `List (String × String)`
  preserving insertion order; `insert` overwrites the value in place when
  the key exists and appends otherwise.
* Rust `Vec::sort` on strings is modelled by `List.insertionSort (· ≤ ·)`
  (any comparison sort of a total order produces the same sorted output).
* OS strings are modelled as Lean `String`s (conversions `to_str` that the
  source checks are modelled as always succeeding on valid Unicode).
* Filesystem reads are passed in explicitly: `fs : String → Option (List DirEntry)`
  gives the listing of a directory (`none` = I/O error of `read_dir`).
-/

/-- The `Projects` struct of src/main.rs (the persisted registry). -/
structure Projects where
  dirs : Option (List String)
  open_cmd : String
  editor : String
  sort : Option Bool
  exclude_proj_dirs : Option Bool
  paths : List (String × String)
deriving Repr, DecidableEq

/-- `Projects::new()`: fresh default registry.  The discovered editor string
is a parameter (the source obtains it from the environment). -/
def Projects.new (defaultEditor : String) : Projects :=
  { paths := []
    dirs := some []
    open_cmd := ""
    editor := defaultEditor
    sort := some true
    exclude_proj_dirs := some false }

/-- `IndexMap::get`: value of a key, if present. -/
def indexGet (m : List (String × String)) (k : String) : Option String :=
  match m with
  | [] => none
  | (k0, v0) :: rest => if k0 = k then some v0 else indexGet rest k

/-- `IndexMap::insert`: overwrite in place when the key exists, else append. -/
def indexInsert (m : List (String × String)) (k v : String) : List (String × String) :=
  if m.any (fun kv => kv.1 = k) then
    m.map (fun kv => if kv.1 = k then (k, v) else kv)
  else
    m ++ [(k, v)]

/-- Rebuilding `paths` in sorted key order, as the loop body of
`sort_config` does with `keys.sort()` followed by `swap_remove`/`insert`. -/
def sortPaths (m : List (String × String)) : List (String × String) :=
  (List.insertionSort (· ≤ ·) (m.map Prod.fst)).filterMap
    (fun k => (indexGet m k).map (fun v => (k, v)))

/-- `sort_config` of src/main.rs: when `sort.unwrap_or(false)`, rebuild
`paths` with keys in sorted order. -/
def sort_config (config : Projects) : Projects :=
  if config.sort.getD false then
    { config with paths := sortPaths config.paths }
  else
    config

/-- `update_config` of src/main.rs, as a pure function.  Returns the migrated
registry and the `changed` flag; the source calls `save_config` exactly when
the flag is true, so the flag counts the writes (0 or 1). -/
def update_config (config : Projects) : Projects × Bool :=
  let s1 : Projects × Bool :=
    match config.sort with
    | none => (sort_config { config with sort := some true }, true)
    | some _ => (config, false)
  let s2 : Projects × Bool :=
    match s1.1.dirs with
    | none => ({ s1.1 with dirs := some [] }, true)
    | some _ => (s1.1, s1.2)
  match s2.1.exclude_proj_dirs with
  | none => ({ s2.1 with exclude_proj_dirs := some false }, true)
  | some _ => (s2.1, s2.2)

/-- `FileValidator::validate` of src/main.rs: `tryExists` models
`Path::try_exists` (`none` = I/O error).  `Except String Bool`:
`.ok true` = `Validation::Valid`, `.ok false` = `Validation::Invalid`. -/
def FileValidator_validate (tryExists : String → Option Bool) (input : String) :
    Except String Bool :=
  match tryExists input with
  | some b => .ok b
  | none => .error "io error"

/-- `new_project` of src/main.rs as a pure function.  `name` is the answer of
the name prompt; `pathArg` is the optional command-line path; `promptedPath`
is the answer of the path prompt (only consulted when `pathArg` is `none`;
the source attaches `FileValidator` to that prompt only).  Returns the
mutated registry and the resolved path; the source then saves once. -/
def new_project (config : Projects) (name : String) (pathArg : Option String)
    (promptedPath : String) : Projects × String :=
  let path := match pathArg with
    | some p => p
    | none => promptedPath
  let config := { config with paths := indexInsert config.paths name path }
  (sort_config config, path)

/-- `add_dir` of src/main.rs as a pure function: `path` is the answer of the
directory prompt; append it to `dirs` (initialising the field when absent),
re-sort, save. -/
def add_dir (config : Projects) (path : String) : Projects :=
  let dirs := match config.dirs with
    | none => []
    | some ds => ds
  sort_config { config with dirs := some (dirs ++ [path]) }

/-- `edit_project` of src/main.rs, after the editor process has run:
every field of the in-memory registry is replaced by the reloaded one
(`newConfig` is the result of `load_config` on the edited file).  No
re-sorting happens here. -/
def edit_project (config newConfig : Projects) : Projects :=
  { config with
    paths := newConfig.paths
    editor := newConfig.editor
    open_cmd := newConfig.open_cmd
    sort := newConfig.sort
    dirs := newConfig.dirs
    exclude_proj_dirs := newConfig.exclude_proj_dirs }

/-- Rust `str::starts_with`, on character lists. -/
def listLeads : List Char → List Char → Bool
  | [], _ => true
  | _ :: _, [] => false
  | p :: ps, c :: cs => p = c && listLeads ps cs

/-- Rust `str::contains` (substring containment at any position),
modelled on the character lists of the strings. -/
def strContains (s pat : String) : Bool :=
  (List.range (s.toList.length + 1)).any
    (fun i => listLeads pat.toList (s.toList.drop i))

/-- The hidden-name test of the scanner: the first character of the base
name is a dot (Rust `starts_with` applied to a dot character). -/
def starts_with_dot (s : String) : Bool :=
  match s.toList with
  | [] => false
  | c :: _ => c = '.'

/-- Splitting a character list at every slash (`"/"` separators kept as
component boundaries, like `str::split`). -/
def splitSlash : List Char → List (List Char)
  | [] => [[]]
  | c :: cs =>
    match splitSlash cs with
    | [] => if c = '/' then [[], []] else [[c]]
    | h :: t => if c = '/' then [] :: h :: t else (c :: h) :: t

/-- Rust `Path::file_name().and_then(to_str)`: the final path component,
`none` for the root, an empty path, or a path ending in `..`
(empty and `.` components are ignored). -/
def file_name_of (p : String) : Option String :=
  let comps := (splitSlash p.toList).filter (fun c => c ≠ [] && c ≠ ['.'])
  match comps.reverse with
  | [] => none
  | c :: _ => if c = ['.', '.'] then none else some (String.mk c)

/-- One entry returned by `fs::read_dir`.  `entryOk` is whether the iterator
item was `Ok`; `fileType` is `some isDir` when `file_type()` succeeded and
`none` when the metadata could not be determined; `name` is the base name
and `path` the full path of the entry. -/
structure DirEntry where
  entryOk : Bool
  fileType : Option Bool
  name : String
  path : String
deriving Repr, DecidableEq

/-- The first filter of `add_options_from_dirs`: keep `Ok` entries whose
file type is known to be a directory (errors and unknown metadata drop). -/
def entry_is_dir (e : DirEntry) : Bool :=
  e.entryOk && (match e.fileType with
    | some ft => ft
    | none => false)

/-- The `retain` closure used when `exclude_proj_dirs` is true: an `Ok`
entry is removed when its base name occurs as a substring of some explicit
project path or of some configured search directory; `Err` entries are kept
by this stage. -/
def keep_entry (config : Projects) (e : DirEntry) : Bool :=
  if e.entryOk then
    if config.paths.any (fun kv => strContains kv.2 e.name) then false
    else
      match config.dirs with
      | some ds => !(ds.any (fun d => strContains d e.name))
      | none => true
  else true

/-- The body of the final `for path in paths` loop of one directory's scan:
skip entries that are not `Ok` or whose base name starts with a dot,
otherwise emit the `(name, path)` pair. -/
def emit_entry (e : DirEntry) : Option (String × String) :=
  if e.entryOk && !(starts_with_dot e.name) then some (e.name, e.path) else none

/-- The scan of one configured directory, given its listing: filter to
directories, apply the project-dir exclusion when enabled, then drop
hidden names and emit `(name, path)` pairs. -/
def scan_dir (config : Projects) (entries : List DirEntry) : List (String × String) :=
  let paths1 := entries.filter entry_is_dir
  let paths2 := if config.exclude_proj_dirs = some true
    then paths1.filter (keep_entry config)
    else paths1
  paths2.filterMap emit_entry

/-- The combined removal condition of the exclusion stage: the base name
occurs as a substring of some explicit project path or of some configured
search directory. -/
def drop_name (config : Projects) (ds : List String) (n : String) : Bool :=
  config.paths.any (fun kv => strContains kv.2 n) || ds.any (fun d => strContains d n)

/-- The body of the `for dir in dirs` loop of `add_options_from_dirs`:
skip the directory when its base name cannot be determined, propagate a
listing failure, otherwise append the surviving candidate names to the
options accumulator and insert them into the candidate map. -/
def scan_step (config : Projects) (fs : String → Option (List DirEntry))
    (acc : List String × List (String × String)) (dir : String) :
    Except Unit (List String × List (String × String)) :=
  match file_name_of dir with
  | none => Except.ok acc
  | some _ =>
    match fs dir with
    | none => Except.error ()
    | some entries =>
      let cands := scan_dir config entries
      Except.ok (acc.1 ++ cands.map Prod.fst,
        cands.foldl (fun m kv => indexInsert m kv.1 kv.2) acc.2)

/-- `add_options_from_dirs` of src/main.rs: fold the configured directories
with `scan_step` (a listing failure, `fs dir = none`, models the `?` on
`read_dir` and fails the whole call); finally `options.sort()`.  When
`dirs` is absent nothing happens (and no sort runs). -/
def add_options_from_dirs (config : Projects) (fs : String → Option (List DirEntry))
    (options0 : List String) :
    Except Unit (List String × List (String × String)) :=
  match config.dirs with
  | none => .ok (options0, [])
  | some ds =>
    (ds.foldlM (scan_step config fs) (options0, ([] : List (String × String)))).map
      (fun acc => (List.insertionSort (· ≤ ·) acc.1, acc.2))

/-- The three action sentinels pushed after the scanned options in `main`. -/
def sentinels : List String := ["[new project]", "[new dir]", "[edit]"]

/-- The option list handed to the select menu in one iteration of the main
loop: registry keys, then scanned candidates (sorted together by
`add_options_from_dirs`), then the three sentinels. -/
def build_menu_options (config : Projects) (fs : String → Option (List DirEntry)) :
    Except Unit (List String × List (String × String)) :=
  match add_options_from_dirs config fs (config.paths.map Prod.fst) with
  | .error e => .error e
  | .ok (opts, m) => .ok (opts ++ sentinels, m)

/-- How `main` interprets the value returned by the select prompt. -/
inductive MenuOutcome where
  | cancelled
  | resolved (path : String)
  | doNewProject
  | doNewDir
  | doEdit
  | internalError
deriving Repr, DecidableEq

/-- Lines 93–111 of src/main.rs: `None` from `prompt_skippable` means
cancel; otherwise the registry is consulted first, then the three
sentinels, then the scanned candidate map (a miss there is the
`expect` panic). -/
def interpret_selection (config : Projects) (dirPaths : List (String × String))
    (sel : Option String) : MenuOutcome :=
  match sel with
  | none => .cancelled
  | some selected =>
    match indexGet config.paths selected with
    | some val => .resolved val
    | none =>
      if selected = "[new project]" then .doNewProject
      else if selected = "[new dir]" then .doNewDir
      else if selected = "[edit]" then .doEdit
      else
        match indexGet dirPaths selected with
        | some p => .resolved p
        | none => .internalError

/-- Observable effects of a run fragment. -/
structure StepEffects where
  configWrites : Nat
  spawns : List String
  stdoutLines : List String
deriving Repr, DecidableEq

/-- `open_project` of src/main.rs: print the path when forced or when the
command is empty, otherwise spawn the command with the path as argument. -/
def open_project (cmd path : String) (filePrint : Bool) : StepEffects :=
  if filePrint || cmd.isEmpty then
    { configWrites := 0, spawns := [], stdoutLines := [path] }
  else
    { configWrites := 0, spawns := [cmd], stdoutLines := [] }

/-- The remainder of `main` from the prompt result onward, for one loop
iteration: the new registry, the resolved path (`none` when the loop
continues), the effects performed, and `some code` when the process
terminates in this fragment.  Interactive answers of the nested prompts
are passed in (`promptedName`, `promptedPath`, `promptedDir`), as is the
reloaded config for the edit action. -/
def menu_step (config : Projects) (dirPaths : List (String × String))
    (sel : Option String) (promptedName promptedPath promptedDir : String)
    (reloaded : Projects) (filePrint : Bool) :
    Projects × Option String × StepEffects × Option Nat :=
  match interpret_selection config dirPaths sel with
  | .cancelled =>
    (config, none, { configWrites := 0, spawns := [], stdoutLines := [] }, some 0)
  | .resolved p =>
    (config, some p, open_project config.open_cmd p filePrint, some 0)
  | .doNewProject =>
    let (c, p) := new_project config promptedName none promptedPath
    (c, some p,
      { open_project c.open_cmd p filePrint with configWrites := 1 }, some 0)
  | .doNewDir =>
    (add_dir config promptedDir, none,
      { configWrites := 1, spawns := [], stdoutLines := [] }, none)
  | .doEdit =>
    (edit_project config reloaded, none,
      { configWrites := 0, spawns := [config.editor], stdoutLines := [] }, none)
  | .internalError =>
    (config, none, { configWrites := 0, spawns := [], stdoutLines := [] }, some 101)

/-! ## Helper lemmas -/

theorem sort_config_dirs (c : Projects) : (sort_config c).dirs = c.dirs := by
  unfold sort_config; split <;> rfl

theorem sort_config_sort (c : Projects) : (sort_config c).sort = c.sort := by
  unfold sort_config; split <;> rfl

theorem sort_config_exclude (c : Projects) :
    (sort_config c).exclude_proj_dirs = c.exclude_proj_dirs := by
  unfold sort_config; split <;> rfl

theorem sort_config_of_sort_true (c : Projects) (h : c.sort = some true) :
    sort_config c = { c with paths := sortPaths c.paths } := by
  unfold sort_config
  rw [h]
  rfl

theorem map_fst_filterMap_indexGet (m : List (String × String)) (s : List String) :
    ((s.filterMap (fun k => (indexGet m k).map (fun v => (k, v)))).map Prod.fst)
      = s.filter (fun k => (indexGet m k).isSome) := by
  induction s with
  | nil => rfl
  | cons k s ih =>
    cases h : indexGet m k <;> simp [h, ih]

theorem sorted_sortPaths (m : List (String × String)) :
    List.Sorted (· ≤ ·) ((sortPaths m).map Prod.fst) := by
  unfold sortPaths
  rw [map_fst_filterMap_indexGet]
  exact (List.sorted_insertionSort (· ≤ ·) (m.map Prod.fst)).filter _

/-! ## Claims -/

/-- C3: migration (`update_config`) is idempotent: a registry with `dirs`,
`sort` and `exclude_proj_dirs` all present is returned unchanged with the
`changed` flag false (zero writes), and after one migration a second run
changes nothing and performs no write. -/
theorem C3_update_config_idempotent (c : Projects) :
    (c.sort.isSome → c.dirs.isSome → c.exclude_proj_dirs.isSome →
      update_config c = (c, false)) ∧
    update_config (update_config c).1 = ((update_config c).1, false) := by
  rcases c with ⟨d, oc, ed, so, ex, pa⟩
  cases so <;> cases d <;> cases ex <;>
    simp [update_config, sort_config, sortPaths]

/-- Witness for C3 at the default registry. -/
theorem C3_witness :
    (Projects.new "vi").sort.isSome ∧ (Projects.new "vi").dirs.isSome ∧
      (Projects.new "vi").exclude_proj_dirs.isSome ∧
      update_config (Projects.new "vi") = (Projects.new "vi", false) :=
  ⟨rfl, rfl, rfl,
    (C3_update_config_idempotent (Projects.new "vi")).1 rfl rfl rfl⟩

theorem sorted_sort_config (c : Projects) (h : c.sort = some true) :
    List.Sorted (· ≤ ·) ((sort_config c).paths.map Prod.fst) := by
  rw [sort_config_of_sort_true c h]
  exact sorted_sortPaths _

/-- C1 (amended): for every registry with `sort = some true`, the key order
of `paths` is non-decreasing lexicographically after `new_project` and
after `add_dir`.  (`edit_project` is excluded: it adopts the reloaded
file's order unchanged, see the counterexample.) -/
theorem C1_amended_sorted_after_mutation (c : Projects)
    (name promptedPath dirPath : String) (pathArg : Option String)
    (h : c.sort = some true) :
    List.Sorted (· ≤ ·)
      ((new_project c name pathArg promptedPath).1.paths.map Prod.fst) ∧
    List.Sorted (· ≤ ·) ((add_dir c dirPath).paths.map Prod.fst) := by
  constructor
  · simp only [new_project]
    exact sorted_sort_config _ h
  · simp only [add_dir]
    exact sorted_sort_config _ h

/-- Witness for C1 at the default registry. -/
theorem C1_witness :
    (Projects.new "vi").sort = some true ∧
    (List.Sorted (· ≤ ·)
      ((new_project (Projects.new "vi") "a" none "/a").1.paths.map Prod.fst) ∧
     List.Sorted (· ≤ ·)
      ((add_dir (Projects.new "vi") "/d").paths.map Prod.fst)) :=
  ⟨rfl, C1_amended_sorted_after_mutation (Projects.new "vi") "a" "/a" "/d" none rfl⟩

/-- A reloaded configuration whose `paths` are out of key order although
`sort` is true (the user reordered the file in the editor). -/
def reloadedUnsorted : Projects :=
  { dirs := some [], open_cmd := "", editor := "", sort := some true,
    exclude_proj_dirs := some false, paths := [("b", "/b"), ("a", "/a")] }

/-- C1 counterexample: after the `edit` action the registry has
`sort = some true` yet its `paths` keys are not in non-decreasing order,
because `edit_project` copies the reloaded fields without re-sorting. -/
theorem C1_counterexample :
    (edit_project (Projects.new "vi") reloadedUnsorted).sort = some true ∧
    ¬ List.Sorted (· ≤ ·)
      ((edit_project (Projects.new "vi") reloadedUnsorted).paths.map Prod.fst) := by
  refine ⟨rfl, ?_⟩
  intro h
  have hb : ("b" : String) ≤ "a" := by
    have h2 := h
    simp only [edit_project, reloadedUnsorted, List.map, List.sorted_cons] at h2
    exact h2.1 "a" (by simp)
  rw [String.le_iff_toList_le] at hb
  exact absurd hb (by decide)

theorem keep_entry_eq (c : Projects) (ds : List String) (hd : c.dirs = some ds)
    (e : DirEntry) (hok : e.entryOk = true) :
    keep_entry c e = !(drop_name c ds e.name) := by
  simp only [keep_entry, drop_name, hok, hd, if_true]
  cases h : c.paths.any (fun kv => strContains kv.2 e.name) <;> simp [h]

theorem filter_keep_filterMap_emit (c : Projects) (ds : List String)
    (hd : c.dirs = some ds) (l : List DirEntry) :
    (l.filter (keep_entry c)).filterMap emit_entry
      = (l.filterMap emit_entry).filter (fun kv => !(drop_name c ds kv.1)) := by
  induction l with
  | nil => rfl
  | cons e l ih =>
    by_cases hok : e.entryOk = true
    · by_cases hdot : starts_with_dot e.name = true
      · have hemit : emit_entry e = none := by simp [emit_entry, hdot]
        cases hdrop : drop_name c ds e.name <;>
          simp [List.filter_cons, List.filterMap_cons, hemit, hdrop,
            keep_entry_eq c ds hd e hok, ih]
      · have hemit : emit_entry e = some (e.name, e.path) := by
          simp [emit_entry, hok, hdot]
        cases hdrop : drop_name c ds e.name <;>
          simp [List.filter_cons, List.filterMap_cons, hemit, hdrop,
            keep_entry_eq c ds hd e hok, ih]
    · have hkeep : keep_entry c e = true := by
        simp [keep_entry, hok]
      have hemit : emit_entry e = none := by
        simp [emit_entry, hok]
      simp [List.filter_cons, List.filterMap_cons, hkeep, hemit, ih]

/-- The configuration of the exclusion example of the spec:
`paths = ("app" to "/home/u/work/app")`, `dirs = ["/home/u/work"]`,
`exclude_proj_dirs` on. -/
def exampleScanCfg : Projects :=
  { dirs := some ["/home/u/work"], open_cmd := "", editor := "", sort := some true,
    exclude_proj_dirs := some true, paths := [("app", "/home/u/work/app")] }

/-- The subdirectory `app` of `/home/u/work`. -/
def appEntry : DirEntry :=
  { entryOk := true, fileType := some true, name := "app", path := "/home/u/work/app" }

/-- A subdirectory whose base name matches no project path. -/
def otherEntry : DirEntry :=
  { entryOk := true, fileType := some true, name := "other", path := "/home/u/work/other" }

/-- C2: with `exclude_proj_dirs = some true` the scan of a directory drops
exactly those surviving candidates whose base name is a substring of some
explicit project path or of some configured search directory
(`drop_name`); in particular, in the spec's example the subdirectory `app`
of `/home/u/work` is not listed while `other` is. -/
theorem C2_exclusion_semantics (c : Projects) (ds : List String)
    (entries : List DirEntry)
    (hd : c.dirs = some ds) (hex : c.exclude_proj_dirs = some true) :
    scan_dir c entries =
      (scan_dir { c with exclude_proj_dirs := some false } entries).filter
        (fun kv => !(drop_name c ds kv.1)) ∧
    scan_dir exampleScanCfg [appEntry, otherEntry]
      = [("other", "/home/u/work/other")] := by
  constructor
  · simp only [scan_dir, hex, if_true, reduceCtorEq, if_false]
    exact filter_keep_filterMap_emit c ds hd (entries.filter entry_is_dir)
  · rfl

/-- Witness for C2 at the spec's example configuration. -/
theorem C2_witness :
    exampleScanCfg.dirs = some ["/home/u/work"] ∧
    exampleScanCfg.exclude_proj_dirs = some true ∧
    (scan_dir exampleScanCfg [appEntry, otherEntry] =
      (scan_dir { exampleScanCfg with exclude_proj_dirs := some false }
        [appEntry, otherEntry]).filter
        (fun kv => !(drop_name exampleScanCfg ["/home/u/work"] kv.1)) ∧
     scan_dir exampleScanCfg [appEntry, otherEntry]
      = [("other", "/home/u/work/other")]) :=
  ⟨rfl, rfl,
    C2_exclusion_semantics exampleScanCfg ["/home/u/work"]
      [appEntry, otherEntry] rfl rfl⟩

theorem filterMap_emit_filter_dir (l : List DirEntry) :
    (l.filter entry_is_dir).filterMap emit_entry = l.filterMap
      (fun e => if entry_is_dir e && !(starts_with_dot e.name)
        then some (e.name, e.path) else none) := by
  induction l with
  | nil => rfl
  | cons e l ih =>
    by_cases hd : entry_is_dir e = true
    · have hok : e.entryOk = true := by
        rcases e with ⟨eok, ft, n, p⟩
        cases eok
        · simp [entry_is_dir] at hd
        · rfl
      by_cases hdot : starts_with_dot e.name = true <;>
        simp [List.filter_cons, List.filterMap_cons, hd, hok, hdot, emit_entry, ih]
    · simp [List.filter_cons, List.filterMap_cons, hd, ih]

/-- A configuration with the project-dir exclusion disabled. -/
def noExclCfg : Projects :=
  { dirs := some ["/d"], open_cmd := "", editor := "", sort := some true,
    exclude_proj_dirs := some false, paths := [] }

/-- A hidden directory entry. -/
def gitEntry : DirEntry :=
  { entryOk := true, fileType := some true, name := ".git", path := "/d/.git" }

/-- A plain directory entry. -/
def srcEntry : DirEntry :=
  { entryOk := true, fileType := some true, name := "src", path := "/d/src" }

/-- A regular-file entry (file type is not a directory). -/
def readmeEntry : DirEntry :=
  { entryOk := true, fileType := some false, name := "README", path := "/d/README" }

/-- An entry whose metadata could not be determined. -/
def badMetaEntry : DirEntry :=
  { entryOk := true, fileType := none, name := "mystery", path := "/d/mystery" }

/-- C6: with the exclusion stage disabled, the candidates contributed by a
scanned directory are exactly its immediate entries that are directories
(entries whose metadata cannot be determined count as non-directories, so
regular files and unreadable entries drop) and whose base name does not
start with a dot; concretely, a listing `.git` (dir), `src` (dir),
`README` (file), `mystery` (unknown metadata) yields only `src`. -/
theorem C6_scan_visibility (c : Projects) (entries : List DirEntry)
    (hex : ¬ c.exclude_proj_dirs = some true) :
    scan_dir c entries = entries.filterMap
      (fun e => if entry_is_dir e && !(starts_with_dot e.name)
        then some (e.name, e.path) else none) ∧
    scan_dir noExclCfg [gitEntry, srcEntry, readmeEntry, badMetaEntry]
      = [("src", "/d/src")] := by
  constructor
  · show (if c.exclude_proj_dirs = some true
        then (entries.filter entry_is_dir).filter (keep_entry c)
        else entries.filter entry_is_dir).filterMap emit_entry = _
    rw [if_neg hex]
    exact filterMap_emit_filter_dir entries
  · rfl

/-- Witness for C6 at the concrete listing. -/
theorem C6_witness :
    ¬ noExclCfg.exclude_proj_dirs = some true ∧
    (scan_dir noExclCfg [gitEntry, srcEntry, readmeEntry, badMetaEntry]
        = [gitEntry, srcEntry, readmeEntry, badMetaEntry].filterMap
          (fun e => if entry_is_dir e && !(starts_with_dot e.name)
            then some (e.name, e.path) else none) ∧
     scan_dir noExclCfg [gitEntry, srcEntry, readmeEntry, badMetaEntry]
        = [("src", "/d/src")]) :=
  ⟨by decide, C6_scan_visibility noExclCfg
    [gitEntry, srcEntry, readmeEntry, badMetaEntry] (by decide)⟩

/-- The combined option list produced by a completed scan is sorted. -/
theorem add_options_sorted (c : Projects) (ds : List String)
    (fs : String → Option (List DirEntry)) (opts0 : List String)
    (res : List String × List (String × String))
    (hd : c.dirs = some ds)
    (hok : add_options_from_dirs c fs opts0 = .ok res) :
    List.Sorted (· ≤ ·) res.1 := by
  unfold add_options_from_dirs at hok
  rw [hd] at hok
  have hok2 : (List.foldlM (scan_step c fs) (opts0, ([] : List (String × String))) ds).map
      (fun acc => (List.insertionSort (· ≤ ·) acc.1, acc.2)) = Except.ok res := hok
  cases hfold : List.foldlM (scan_step c fs) (opts0, ([] : List (String × String))) ds with
  | error e => rw [hfold] at hok2; cases hok2
  | ok acc =>
    rw [hfold] at hok2
    cases hok2
    exact List.sorted_insertionSort (· ≤ ·) acc.1

/-- C4: when a scan over configured directories completes, the combined
option list is sorted lexicographically, and the scan result does not
depend on the registry's `sort` flag at all (the flag only governs the
persisted `paths` order). -/
theorem C4_options_sorted (c : Projects) (ds : List String)
    (fs : String → Option (List DirEntry)) (opts0 : List String)
    (res : List String × List (String × String)) (b : Option Bool)
    (hd : c.dirs = some ds)
    (hok : add_options_from_dirs c fs opts0 = .ok res) :
    List.Sorted (· ≤ ·) res.1 ∧
    add_options_from_dirs { c with sort := b } fs opts0
      = add_options_from_dirs c fs opts0 := by
  refine ⟨add_options_sorted c ds fs opts0 res hd hok, ?_⟩
  rcases c with ⟨d, oc, ed, so, ex, pa⟩
  rfl

/-- A one-directory filesystem whose listing holds a single `src` entry. -/
def scanFs : String → Option (List DirEntry) :=
  fun d => if d = "/d" then some [srcEntry] else none

/-- Witness for C4 at the one-directory filesystem. -/
theorem C4_witness :
    noExclCfg.dirs = some ["/d"] ∧
    add_options_from_dirs noExclCfg scanFs [] = .ok (["src"], [("src", "/d/src")]) ∧
    (List.Sorted (· ≤ ·) (["src"], [("src", "/d/src")]).1 ∧
     add_options_from_dirs { noExclCfg with sort := some false } scanFs []
       = add_options_from_dirs noExclCfg scanFs []) :=
  ⟨rfl, rfl,
    C4_options_sorted noExclCfg ["/d"] scanFs [] (["src"], [("src", "/d/src")])
      (some false) rfl rfl⟩

/-- C9: the rendered menu is the scanned option list followed by the three
action sentinels `[new project]`, `[new dir]`, `[edit]` in that fixed
order; the lexicographic sort happens before the sentinels are appended
(the name part is sorted whenever a scan ran), so sentinels are never
interleaved with name options. -/
theorem C9_sentinels_last (c : Projects) (fs : String → Option (List DirEntry))
    (opts : List String) (m : List (String × String))
    (h : add_options_from_dirs c fs (c.paths.map Prod.fst) = .ok (opts, m)) :
    build_menu_options c fs
      = .ok (opts ++ ["[new project]", "[new dir]", "[edit]"], m) ∧
    (∀ ds, c.dirs = some ds → List.Sorted (· ≤ ·) opts) := by
  constructor
  · unfold build_menu_options
    rw [h]
    rfl
  · intro ds hd
    exact add_options_sorted c ds fs (c.paths.map Prod.fst) (opts, m) hd h

/-- Witness for C9 at the one-directory filesystem. -/
theorem C9_witness :
    add_options_from_dirs noExclCfg scanFs (noExclCfg.paths.map Prod.fst)
      = .ok (["src"], [("src", "/d/src")]) ∧
    (build_menu_options noExclCfg scanFs
      = .ok (["src"] ++ ["[new project]", "[new dir]", "[edit]"], [("src", "/d/src")]) ∧
     (∀ ds, noExclCfg.dirs = some ds → List.Sorted (· ≤ ·) ["src"])) :=
  ⟨rfl, C9_sentinels_last noExclCfg scanFs ["src"] [("src", "/d/src")] rfl⟩

/-- C5: dismissing the selection prompt with no choice yields the
`cancelled` outcome: the process exits with status 0, performs no config
write, spawns nothing (in particular never the configured `open_cmd`),
and leaves the registry untouched. -/
theorem C5_cancel_clean_exit (c : Projects) (dirPaths : List (String × String))
    (pn pp pd : String) (reloaded : Projects) (fp : Bool) :
    interpret_selection c dirPaths none = .cancelled ∧
    menu_step c dirPaths none pn pp pd reloaded fp
      = (c, none, { configWrites := 0, spawns := [], stdoutLines := [] }, some 0) :=
  ⟨rfl, rfl⟩

/-- C7: a selected name that is both a registry key and a scanned
candidate resolves to the registry entry's path: the `paths` lookup is
performed before the candidate-map lookup. -/
theorem C7_registry_precedence (c : Projects) (dirPaths : List (String × String))
    (s v w : String) (hreg : indexGet c.paths s = some v)
    (_hscan : indexGet dirPaths s = some w) :
    interpret_selection c dirPaths (some s) = .resolved v := by
  simp only [interpret_selection]
  rw [hreg]

/-- A registry whose explicit `app` entry collides with a scanned `app`. -/
def collideCfg : Projects :=
  { dirs := some ["/scan"], open_cmd := "", editor := "", sort := some true,
    exclude_proj_dirs := some false, paths := [("app", "/registry/app")] }

/-- Witness for C7 at the colliding name `app`. -/
theorem C7_witness :
    indexGet collideCfg.paths "app" = some "/registry/app" ∧
    indexGet [("app", "/scan/app")] "app" = some "/scan/app" ∧
    interpret_selection collideCfg [("app", "/scan/app")] (some "app")
      = .resolved "/registry/app" :=
  ⟨rfl, rfl,
    C7_registry_precedence collideCfg [("app", "/scan/app")] "app"
      "/registry/app" "/scan/app" rfl rfl⟩

/-- C8: when the print flag is set or the configured command is empty,
the launcher writes the path to standard output and spawns nothing. -/
theorem C8_print_overrides_spawn (cmd path : String) (fp : Bool)
    (h : fp = true ∨ cmd = "") :
    open_project cmd path fp
      = { configWrites := 0, spawns := [], stdoutLines := [path] } := by
  unfold open_project
  rcases h with h | h
  · rw [h]
    simp
  · rw [h]
    cases fp <;> rfl

/-- Witness for C8 with `open_cmd = "code"` and the print flag set:
`code` is never spawned. -/
theorem C8_witness :
    (true = true ∨ ("code" : String) = "") ∧
    open_project "code" "/p" true
      = { configWrites := 0, spawns := [], stdoutLines := ["/p"] } :=
  ⟨Or.inl rfl, C8_print_overrides_spawn "code" "/p" true (Or.inl rfl)⟩

/-- C10: a path supplied on the command line (`new <path>`) is inserted
into the registry without any existence validation: even for a path the
`FileValidator` would reject as non-existent, `new_project` inserts it and
returns it (the validator is attached only to the interactive path
prompt, which is skipped here — the `promptedPath` argument is ignored). -/
theorem C10_cli_path_skips_validation (c : Projects)
    (name p promptedPath : String) (tryExists : String → Option Bool)
    (hbad : tryExists p = some false) :
    FileValidator_validate tryExists p = .ok false ∧
    new_project c name (some p) promptedPath
      = (sort_config { c with paths := indexInsert c.paths name p }, p) := by
  constructor
  · unfold FileValidator_validate
    rw [hbad]
  · rfl

/-- Witness for C10 at a filesystem where nothing exists. -/
theorem C10_witness :
    (fun _ : String => some false) "/nowhere" = some false ∧
    (FileValidator_validate (fun _ => some false) "/nowhere" = .ok false ∧
     new_project (Projects.new "vi") "ghost" (some "/nowhere") "/tmp"
      = (sort_config
          { Projects.new "vi" with
            paths := indexInsert (Projects.new "vi").paths "ghost" "/nowhere" },
         "/nowhere")) :=
  ⟨rfl, C10_cli_path_skips_validation (Projects.new "vi") "ghost" "/nowhere" "/tmp"
    (fun _ => some false) rfl⟩

/-- C6 counterexample: with the exclusion stage enabled, a non-hidden
directory entry (`app`) is nevertheless dropped, so the candidates are not
exactly the non-hidden directory entries of the listing. -/
theorem C6_counterexample :
    scan_dir exampleScanCfg [appEntry]
      ≠ [appEntry].filterMap
        (fun e => if entry_is_dir e && !(starts_with_dot e.name)
          then some (e.name, e.path) else none) := by
  decide
